import Mathlib

/-!
Verification of the greentic-gui route-resolution and fragment-injection core.

The definitions below are shallow embeddings of the Rust sources:
  * `normalize_route`, the distributor pack provider and its cache — src/packs.rs
  * `path_matches`, `TenantGuiConfig.resolve_route` — src/tenant.rs
  * the fragment renderer chain and `inject_fragments` — src/fragments.rs
Strings are modelled as Lean `String` (a wrapped `List Char`), `PathBuf`
values as the path strings they print to, and the external HTML library
(kuchiki) as an explicit `HtmlBackend` parameter supplying parse, serialize
and CSS-selector matching.
-/

namespace GreenticGui

/-- Rust `char::is_whitespace` (the Unicode `White_Space` property), the
character class removed at both ends by `str::trim` inside
`normalize_route` (src/packs.rs line 511). -/
def isRustWhitespace (c : Char) : Bool :=
  (0x09 ≤ c.toNat && c.toNat ≤ 0x0D) || c.toNat = 0x20 || c.toNat = 0x85 ||
  c.toNat = 0xA0 || c.toNat = 0x1680 ||
  (0x2000 ≤ c.toNat && c.toNat ≤ 0x200A) || c.toNat = 0x2028 ||
  c.toNat = 0x2029 || c.toNat = 0x202F || c.toNat = 0x205F || c.toNat = 0x3000

/-- The regex rewrite `Regex::new(r"/+").replace_all(path, "/")` of
src/packs.rs lines 509-510: every maximal run of `/` collapses to one `/`
(implemented by dropping each `/` that is immediately followed by another). -/
def collapseSlashes : List Char → List Char
  | [] => []
  | [c] => [c]
  | c :: d :: rest =>
    if c = '/' ∧ d = '/' then collapseSlashes (d :: rest)
    else c :: collapseSlashes (d :: rest)

/-- Rust `str::trim`: drop `White_Space` characters from both ends. -/
def trimChars (l : List Char) : List Char :=
  ((l.dropWhile isRustWhitespace).reverse.dropWhile isRustWhitespace).reverse

/-- The character-list body of `normalize_route`: collapse slash runs, trim
surrounding whitespace, then force a leading `/` exactly when the trimmed
result does not already start with one (`str::starts_with('/')`). -/
def normalizeChars (l : List Char) : List Char :=
  let s := trimChars (collapseSlashes l)
  if s.head? = some '/' then s else '/' :: s

/-- `normalize_route` of src/packs.rs lines 508-516. -/
def normalize_route (path : String) : String :=
  String.mk (normalizeChars path.data)

/-- Rust `str::trim_end_matches(c)`: strip every trailing copy of `c`. -/
def trimEndMatching (l : List Char) (c : Char) : List Char :=
  (l.reverse.dropWhile (fun x => x = c)).reverse

/-- `path_matches` of src/tenant.rs lines 257-263: a pattern ending in `/*`
matches every path that starts with the pattern minus its trailing `*`s and
then minus its trailing `/`s; any other pattern matches by equality with the
(already normalized) path after itself being normalized. -/
def path_matches (path pattern : String) : Bool :=
  if ['/', '*'].isSuffixOf pattern.data then
    (trimEndMatching (trimEndMatching pattern.data '*') '/').isPrefixOf path.data
  else
    normalize_route pattern == path

/-! ## Manifest data model (src/packs.rs lines 214-314)

Opaque `serde_json::Value` payloads (`oauth`, `ui_bindings`, the skin and
telemetry manifest bodies) and the `secret_requirements` lists are carried
by the Rust structs but never read by any operation embedded here; they are
modelled as raw strings or omitted, as noted on each structure. -/

structure LayoutConfig where
  slots : List String
  entrypoint_html : String
  spa : Bool
  slot_selectors : List (String × String)
deriving DecidableEq

structure LayoutManifest where
  kind : String
  layout : LayoutConfig
deriving DecidableEq

structure AuthRoute where
  path : String
  public : Bool
  html : String
deriving DecidableEq

/-- `AuthManifest` (src/packs.rs 228-234); the opaque `oauth` and
`ui_bindings` JSON values are kept as their raw text, never inspected. -/
structure AuthManifest where
  kind : String
  routes : List AuthRoute
  oauth : String
  ui_bindings : String
deriving DecidableEq

structure FeatureRoute where
  path : String
  authenticated : Bool
  html : String
deriving DecidableEq

structure WorkerAttach where
  mode : String
  selector : String
deriving DecidableEq

structure DigitalWorker where
  id : String
  worker_id : String
  attach : WorkerAttach
  routes : List String
deriving DecidableEq

structure FragmentBinding where
  id : String
  selector : String
  component_world : String
  component_name : String
deriving DecidableEq

structure FeatureManifest where
  kind : String
  routes : List FeatureRoute
  digital_workers : List DigitalWorker
  fragments : List FragmentBinding
deriving DecidableEq

/-- `GuiPack` (src/packs.rs 286-314); skin and telemetry manifests are
opaque JSON, modelled as their raw text. Roots are path strings. -/
inductive GuiPack where
  | layout (manifest : LayoutManifest) (root : String)
  | auth (manifest : AuthManifest) (root : String)
  | feature (manifest : FeatureManifest) (root : String)
  | skin (manifest : String) (root : String)
  | telemetry (manifest : String) (root : String)
deriving DecidableEq

/-! ## Tenant configuration (src/tenant.rs lines 9-53)

`secret_requirements` fields are omitted throughout: `resolve_route` never
reads them. `PathBuf` fields are modelled as path strings. -/

structure PackLocation where
  root : String
  assets : String
  pack_hint : Option String
deriving DecidableEq

structure LayoutPack where
  manifest : LayoutManifest
  location : PackLocation
deriving DecidableEq

structure AuthPack where
  manifest : AuthManifest
  location : PackLocation
deriving DecidableEq

structure FeaturePack where
  manifest : FeatureManifest
  location : PackLocation
deriving DecidableEq

structure TenantGuiConfig where
  tenant_did : String
  domain : String
  layout : LayoutPack
  auth : Option AuthPack
  skin : Option PackLocation
  telemetry : Option PackLocation
  features : List FeaturePack
deriving DecidableEq

/-- Model of Rust `Path::join`: an absolute right-hand side replaces the
base entirely; otherwise the parts are joined with a single `/`. -/
def joinPath (base part : String) : String :=
  if part.data.head? = some '/' then part
  else if base.data.getLast? = some '/' then base ++ part
  else base ++ "/" ++ part

inductive RouteSource where
  | layout (pack : LayoutPack)
  | auth (pack : AuthPack)
  | feature (pack : FeaturePack)
deriving DecidableEq

structure FragmentTarget where
  binding : FragmentBinding
  assets_root : String
deriving DecidableEq

structure ResolvedRoute where
  source : RouteSource
  html_path : String
  authenticated : Bool
  fragments : List FragmentTarget
deriving DecidableEq

/-- The inner loop of `resolve_route` over one manifest's route list:
first route (in manifest order) whose pattern matches the path. -/
def firstFeatureRoute (p : String) (routes : List FeatureRoute) : Option FeatureRoute :=
  routes.find? (fun r => path_matches p r.path)

/-- The outer loop of `resolve_route` over the feature packs: first pack
(in pack-list order) owning a matching route, with that route. -/
def firstFeatureMatch (p : String) : List FeaturePack → Option (FeaturePack × FeatureRoute)
  | [] => none
  | f :: rest =>
    match firstFeatureRoute p f.manifest.routes with
    | some r => some (f, r)
    | none => firstFeatureMatch p rest

/-- First matching auth route, in manifest order. -/
def firstAuthRoute (p : String) (routes : List AuthRoute) : Option AuthRoute :=
  routes.find? (fun r => path_matches p r.path)

/-- The `ResolvedRoute` built from a matched feature route
(src/tenant.rs lines 186-203). -/
def featureResolved (f : FeaturePack) (r : FeatureRoute) : ResolvedRoute :=
  { source := .feature f
    html_path := joinPath f.location.assets r.html
    authenticated := r.authenticated
    fragments := f.manifest.fragments.map
      (fun b => { binding := b, assets_root := f.location.assets }) }

/-- The `ResolvedRoute` built from a matched auth route
(src/tenant.rs lines 209-216). -/
def authResolved (a : AuthPack) (r : AuthRoute) : ResolvedRoute :=
  { source := .auth a
    html_path := joinPath a.location.assets r.html
    authenticated := !r.public
    fragments := [] }

/-- The unconditional layout fallback (src/tenant.rs lines 220-230). -/
def layoutResolved (l : LayoutPack) : ResolvedRoute :=
  { source := .layout l
    html_path := joinPath l.location.assets l.manifest.layout.entrypoint_html
    authenticated := false
    fragments := [] }

/-- `TenantGuiConfig::resolve_route` (src/tenant.rs lines 182-231):
normalize the path, scan feature packs in order (routes in manifest order),
then the auth routes, then fall back to the layout entrypoint. -/
def TenantGuiConfig.resolve_route (cfg : TenantGuiConfig) (path : String) :
    Option ResolvedRoute :=
  let p := normalize_route path
  match firstFeatureMatch p cfg.features with
  | some fr => some (featureResolved fr.1 fr.2)
  | none =>
    match cfg.auth with
    | some a =>
      match firstAuthRoute p a.manifest.routes with
      | some r => some (authResolved a r)
      | none => some (layoutResolved cfg.layout)
    | none => some (layoutResolved cfg.layout)

/-! ## Fragment rendering pipeline (src/fragments.rs)

Renderers are async trait objects in Rust; here a renderer is a function
from binding, assets root and context to `Except FragmentError (Option String)`,
exactly the shape of `FragmentRenderer::render_fragment`. -/

/-- `FragmentError` (src/fragments.rs 29-38). -/
inductive FragmentError where
  | renderer (msg : String)
  | html (msg : String)
  | missingSecrets (msg : String)
deriving DecidableEq

/-- `FragmentContext` (src/fragments.rs 21-27). -/
structure FragmentContext where
  tenant_ctx : String
  user_ctx : String
  route : String
  session_id : String
deriving DecidableEq

/-- `SessionInfo` (src/integration.rs 24-28); the `tenant_ctx` field is
never read by `inject_fragments` and is omitted. -/
structure SessionInfo where
  session_id : String
  user_id : Option String
deriving DecidableEq

/-- The shape of `FragmentRenderer::render_fragment`. -/
def RendererFn : Type :=
  FragmentBinding → String → FragmentContext → Except FragmentError (Option String)

/-- Rust `str::contains(pat)` on the character lists of the strings. -/
def listContains (hay pat : List Char) : Bool :=
  match hay with
  | [] => pat.isEmpty
  | _ :: t => pat.isPrefixOf hay || listContains t pat

/-- The shape of `FragmentInvoker::render` (src/fragments.rs 75-84):
either markup or an error string. -/
def InvokerFn : Type :=
  String → String → String → String → FragmentContext → Except String String

/-- `WitFragmentRenderer::render_fragment` (src/fragments.rs 99-131):
markup passes through; an error string containing `missing_secrets` becomes
`FragmentError::MissingSecrets`; any other error becomes no-opinion. -/
def WitFragmentRenderer.render_fragment (invoker : InvokerFn) : RendererFn :=
  fun binding assets_root ctx =>
    match invoker binding.component_world binding.component_name binding.id
        assets_root ctx with
    | .ok html => .ok (some html)
    | .error err =>
      if listContains err.data "missing_secrets".data then
        .error (.missingSecrets err)
      else
        .ok none

/-- `CompositeFragmentRenderer::render_fragment` (src/fragments.rs 159-173):
try the WIT renderer when configured, propagating its errors with `?` and
returning its markup; fall through to the file renderer only when it gives
no opinion. The file renderer is an arbitrary function (it reads the
filesystem in Rust). -/
def CompositeFragmentRenderer.render_fragment
    (wit : Option InvokerFn) (file : RendererFn) : RendererFn :=
  fun binding assets_root ctx =>
    match wit with
    | some invoker =>
      match WitFragmentRenderer.render_fragment invoker binding assets_root ctx with
      | .error e => .error e
      | .ok (some html) => .ok (some html)
      | .ok none => file binding assets_root ctx
    | none => file binding assets_root ctx

/-! ### HTML surgery

The HTML library (kuchiki, an external crate) is modelled by a node tree
plus an `HtmlBackend` supplying its parser, serializer and CSS selector
matching; the control flow of `replace_selector_inner_html` and
`inject_fragments` is translated from src/fragments.rs. CSS selectors match
element nodes only, so the matcher receives a tag name and attributes; an
invalid selector string (which makes kuchiki's `select` return `Err` before
any mutation, an error the caller only logs) is observationally a selector
matching nothing and is modelled as such. -/

inductive HtmlNode where
  | element (tag : String) (attrs : List (String × String)) (children : List HtmlNode)
  | text (s : String)

def HtmlNode.childrenOf : HtmlNode → List HtmlNode
  | .element _ _ cs => cs
  | .text _ => []

/-- Lift an element matcher to nodes: text nodes never match a selector. -/
def nodeMatches (m : String → List (String × String) → Bool) : HtmlNode → Bool
  | .element t a _ => m t a
  | .text _ => false

mutual
/-- First node matching `m` in document (pre)order, as kuchiki's
`select(...).next()` yields it. -/
def findFirstNode (m : HtmlNode → Bool) : HtmlNode → Option HtmlNode
  | .element t a cs =>
    if m (.element t a cs) then some (.element t a cs) else findFirstList m cs
  | .text s => if m (.text s) then some (.text s) else none

def findFirstList (m : HtmlNode → Bool) : List HtmlNode → Option HtmlNode
  | [] => none
  | c :: rest =>
    match findFirstNode m c with
    | some r => some r
    | none => findFirstList m rest
end

mutual
/-- Detach all children of the first node matching `m` and append `nc`
instead; the boolean reports whether a match was found. Mirrors the
mutation of src/fragments.rs lines 350-369. -/
def replaceFirstNode (m : HtmlNode → Bool) (nc : List HtmlNode) :
    HtmlNode → HtmlNode × Bool
  | .element t a cs =>
    if m (.element t a cs) then (.element t a nc, true)
    else
      let r := replaceFirstList m nc cs
      (.element t a r.1, r.2)
  | .text s => (.text s, false)

def replaceFirstList (m : HtmlNode → Bool) (nc : List HtmlNode) :
    List HtmlNode → List HtmlNode × Bool
  | [] => ([], false)
  | c :: rest =>
    let r := replaceFirstNode m nc c
    if r.2 then (r.1 :: rest, true)
    else
      let rr := replaceFirstList m nc rest
      (c :: rr.1, rr.2)
end

mutual
/-- Whether any node of the tree matches `m`. -/
def anyMatchNode (m : HtmlNode → Bool) : HtmlNode → Bool
  | .element t a cs => m (.element t a cs) || anyMatchList m cs
  | .text s => m (.text s)

def anyMatchList (m : HtmlNode → Bool) : List HtmlNode → Bool
  | [] => false
  | c :: rest => anyMatchNode m c || anyMatchList m rest
end

/-- The external HTML library's primitives: parse a string to a node tree,
serialize a tree back to a string, and interpret a CSS selector string
against an element's tag and attributes. -/
structure HtmlBackend where
  parse : String → HtmlNode
  serialize : HtmlNode → String
  selMatch : String → String → List (String × String) → Bool

/-- The children grafted under the target by `replace_selector_inner_html`
(src/fragments.rs 358-368): the new markup is parsed wrapped in a throwaway
`#__greentic_fragment_wrapper` div and that wrapper's children are moved
under the target (none when the wrapper cannot be found back). -/
def wrapperChildren (B : HtmlBackend) (new_html : String) : List HtmlNode :=
  let wrapper_html :=
    "<div id=\"__greentic_fragment_wrapper\">" ++ new_html ++ "</div>"
  let fragment_doc := B.parse wrapper_html
  match findFirstNode
      (nodeMatches (B.selMatch "#__greentic_fragment_wrapper")) fragment_doc with
  | some w => w.childrenOf
  | none => []

/-- `replace_selector_inner_html` (src/fragments.rs 342-372): find the
first node matching the selector; if none, leave the document untouched;
otherwise detach its children and append `wrapperChildren` instead. -/
def replace_selector_inner_html (B : HtmlBackend) (document : HtmlNode)
    (selector new_html : String) : HtmlNode :=
  (replaceFirstNode (nodeMatches (B.selMatch selector))
    (wrapperChildren B new_html) document).1

/-- The `FragmentContext` built per binding inside `inject_fragments`
(src/fragments.rs 281-288). -/
def mkFragmentContext (session : Option SessionInfo) (tenant_did route : String) :
    FragmentContext :=
  { tenant_ctx := tenant_did
    user_ctx :=
      match session.bind (fun s => s.user_id) with
      | some u => u
      | none => "\x7b\x7d"
    route := route
    session_id :=
      match session with
      | some s => s.session_id
      | none => "" }

/-- The inline placeholder for a missing-secrets failure
(src/fragments.rs 307-310). -/
def missingSecretsFallback (id : String) : String :=
  "<div class=\"fragment-error\" data-fragment-id=\"" ++ id ++
    "\">missing secrets for fragment</div>"

/-- The inline placeholder for any other renderer failure
(src/fragments.rs 321-324). -/
def renderFailedFallback (id : String) : String :=
  "<div class=\"fragment-error\" data-fragment-id=\"" ++ id ++
    "\">fragment render failed</div>"

/-- One iteration of the render-collection loop of `inject_fragments`
(src/fragments.rs 279-328): markup is collected, no-opinion skipped,
missing-secrets and generic failures collected as their placeholders. -/
def renderedOf (renderer : RendererFn) (session : Option SessionInfo)
    (tenant_did route : String) (target : FragmentTarget) :
    Option (FragmentBinding × String × String) :=
  match renderer target.binding target.assets_root
      (mkFragmentContext session tenant_did route) with
  | .ok (some fragment_html) => some (target.binding, fragment_html, target.assets_root)
  | .ok none => none
  | .error (.missingSecrets _) =>
    some (target.binding, missingSecretsFallback target.binding.id, target.assets_root)
  | .error _ =>
    some (target.binding, renderFailedFallback target.binding.id, target.assets_root)

/-- `inject_fragments` (src/fragments.rs 266-340): empty binding list
short-circuits to the input string; otherwise the collected (binding,
markup) pairs are injected in order into the parsed document, whose
serialization is returned. Injection failures are only logged in Rust, so
the non-empty branch always returns `ok`. -/
def inject_fragments (B : HtmlBackend) (renderer : RendererFn) (html : String)
    (bindings : List FragmentTarget) (session : Option SessionInfo)
    (tenant_did route : String) : Except FragmentError String :=
  if bindings.isEmpty then
    .ok html
  else
    let rendered := bindings.filterMap (renderedOf renderer session tenant_did route)
    let document := B.parse html
    let final := rendered.foldl
      (fun doc bh => replace_selector_inner_html B doc bh.1.selector bh.2.1) document
    .ok (B.serialize final)

/-! ## Distributor pack provider (src/packs.rs lines 18-212, 475-506)

The remote side (distributor client, OCI download, archive extraction) is
I/O in Rust; it is modelled by an oracle indexed by the number of remote
resolution calls made so far, so successive calls may yield different
materialized paths. The state threads the `(tenant, kind)` resolution cache
(a `HashMap` behind a mutex, modelled as a shadowing association list) and
the remote-call counter. -/

/-- `PackKind` (src/packs.rs 21-27). -/
inductive PackKind where
  | guiLayout
  | guiAuth
  | guiFeature
  | guiSkin
  | guiTelemetry
deriving DecidableEq

/-- The `{:?}` debug rendering of `PackKind` used to build the cache key
(src/packs.rs line 62). -/
def PackKind.debugStr : PackKind → String
  | .guiLayout => "GuiLayout"
  | .guiAuth => "GuiAuth"
  | .guiFeature => "GuiFeature"
  | .guiSkin => "GuiSkin"
  | .guiTelemetry => "GuiTelemetry"

/-- `DistributorPackRef` (src/packs.rs 30-34). -/
structure DistributorPackRef where
  pack_id : String
  component_id : String
  version : String
deriving DecidableEq

/-- The mutable state of `DistributorPackProvider`: the resolution cache and
(for the embedding) how many remote resolution calls have happened. -/
structure DistState where
  cache : List (String × String)
  remoteCalls : Nat
deriving DecidableEq

/-- The `format!("{}::{:?}", tenant, kind)` cache key (src/packs.rs 62). -/
def cacheKey (tenant : String) (kind : PackKind) : String :=
  tenant ++ "::" ++ kind.debugStr

/-- `HashMap::get` on the association-list model (insertion shadows). -/
def lookupCache (c : List (String × String)) (k : String) : Option String :=
  (c.find? (fun e => e.1 == k)).map (fun e => e.2)

/-- The remote resolution oracle: result of the n-th remote
`resolve_component` call with its artifact already materialized to a local
path (`FilePath` used directly; `OciReference` downloaded and extracted to a
fresh temp dir; `DistributorInternal` accepted only as an existing local
path), or the error that call produced. -/
def RemoteOracle : Type := Nat → Except String String

/-- `DistributorPackProvider::resolve` (src/packs.rs 58-91): no configured
pack ref for the kind returns `None` with no remote call; a cached path for
`tenant::kind` is returned as is; otherwise one remote call resolves and
materializes the artifact and the resulting path is memoized. -/
def DistributorPackProvider.resolve (packs : PackKind → Option DistributorPackRef)
    (remote : RemoteOracle) (st : DistState) (tenant : String) (kind : PackKind) :
    Except String (Option String) × DistState :=
  match packs kind with
  | none => (.ok none, st)
  | some _ =>
    let key := cacheKey tenant kind
    match lookupCache st.cache key with
    | some path => (.ok (some path), st)
    | none =>
      match remote st.remoteCalls with
      | .error e => (.error e, { st with remoteCalls := st.remoteCalls + 1 })
      | .ok path =>
        (.ok (some path),
          { cache := (key, path) :: st.cache, remoteCalls := st.remoteCalls + 1 })

/-- `DistributorPackProvider::reset_cache` (src/packs.rs 207-211), the body
of `clear_cache`: the cache is emptied wholesale. -/
def DistributorPackProvider.reset_cache (st : DistState) : DistState :=
  { st with cache := [] }

/-- `DistributorPackProvider::load_features` (src/packs.rs 496-501): load
the single configured feature pack, yielding a zero- or one-element list.
`load_pack` (resolve + manifest read + kind dispatch, I/O in Rust) is an
arbitrary function here. -/
def DistributorPackProvider.load_features
    (loadPack : String → PackKind → Except String (Option GuiPack))
    (tenant : String) : Except String (List GuiPack) :=
  match loadPack tenant .guiFeature with
  | .error e => .error e
  | .ok (some pack) => .ok [pack]
  | .ok none => .ok []

/-- The outcome of reading `gui/manifest.json` under one pack directory,
for the filesystem provider: the manifest's `kind` discriminator and the
result of parsing the body as a feature manifest. -/
structure ManifestRead where
  kindField : Option String
  asFeature : Except String FeatureManifest

/-- `FsPackProvider::load_features` (src/packs.rs 454-470): scan every
discovered pack directory of the tenant, keeping one entry per directory
whose manifest kind is `gui-feature`; manifest read or parse errors abort
the whole load. `readManifest` stands for the filesystem read. -/
def FsPackProvider.load_features (root tenant : String)
    (readManifest : String → Except String ManifestRead) :
    List String → Except String (List GuiPack)
  | [] => .ok []
  | name :: rest =>
    let pack_root := joinPath (joinPath root tenant) name
    match readManifest pack_root with
    | .error e => .error e
    | .ok mj =>
      if mj.kindField = some "gui-feature" then
        match mj.asFeature with
        | .error e => .error e
        | .ok manifest =>
          match FsPackProvider.load_features root tenant readManifest rest with
          | .error e => .error e
          | .ok l => .ok (GuiPack.feature manifest pack_root :: l)
      else FsPackProvider.load_features root tenant readManifest rest

/-! ## Fixtures

Concrete packs and configurations used to instantiate the theorems; the
layout/feature shapes follow the repository's own test fixture
(src/tenant.rs `sample_config`). -/

def sampleLayout : LayoutPack :=
  { manifest :=
      { kind := "gui-layout"
        layout :=
          { slots := ["header", "menu", "main", "footer"]
            entrypoint_html := "index.html"
            spa := true
            slot_selectors := [] } }
    location :=
      { root := "/tmp/layout", assets := "/tmp/layout/gui/assets", pack_hint := none } }

def sampleBinding : FragmentBinding :=
  { id := "test"
    selector := "#target"
    component_world := "greentic:gui/gui-fragment@1.0.0"
    component_name := "fragment" }

def sampleFeature : FeaturePack :=
  { manifest :=
      { kind := "gui-feature"
        routes := [{ path := "/invoices", authenticated := true, html := "invoices.html" }]
        digital_workers := []
        fragments := [sampleBinding] }
    location :=
      { root := "/tmp/feature", assets := "/tmp/feature/gui/assets", pack_hint := none } }

def sampleAuth : AuthPack :=
  { manifest :=
      { kind := "gui-auth"
        routes := [{ path := "/login", public := true, html := "login.html" }]
        oauth := "null"
        ui_bindings := "null" }
    location :=
      { root := "/tmp/auth", assets := "/tmp/auth/gui/assets", pack_hint := none } }

def sampleConfig : TenantGuiConfig :=
  { tenant_did := "tenant"
    domain := "example.com"
    layout := sampleLayout
    auth := some sampleAuth
    skin := none
    telemetry := none
    features := [sampleFeature] }

/-- No two consecutive characters of the list are both `/`. -/
def noSlashRun : List Char → Bool
  | [] => true
  | [_] => true
  | c :: d :: rest => if c = '/' ∧ d = '/' then false else noSlashRun (d :: rest)

/-! ## Helper lemmas on slash collapsing, trimming and normalization -/

theorem collapseSlashes_head? : ∀ l : List Char, (collapseSlashes l).head? = l.head?
  | [] => rfl
  | [_] => rfl
  | c :: d :: rest => by
    simp only [collapseSlashes]
    split
    · next h =>
      rw [collapseSlashes_head? (d :: rest)]
      simp [h.1, h.2]
    · rfl

theorem noSlashRun_cons (c : Char) (m : List Char) (hm : noSlashRun m = true)
    (hh : ∀ d, m.head? = some d → ¬(c = '/' ∧ d = '/')) :
    noSlashRun (c :: m) = true := by
  cases m with
  | nil => rfl
  | cons e t =>
    have he := hh e rfl
    simp only [noSlashRun, if_neg he]
    exact hm

theorem noSlashRun_tail (c : Char) (t : List Char) (h : noSlashRun (c :: t) = true) :
    noSlashRun t = true := by
  cases t with
  | nil => rfl
  | cons d r =>
    simp only [noSlashRun] at h
    split at h
    · cases h
    · exact h

theorem collapseSlashes_noSlashRun : ∀ l : List Char,
    noSlashRun (collapseSlashes l) = true
  | [] => rfl
  | [_] => rfl
  | c :: d :: rest => by
    simp only [collapseSlashes]
    split
    · exact collapseSlashes_noSlashRun (d :: rest)
    · next h =>
      refine noSlashRun_cons c _ (collapseSlashes_noSlashRun (d :: rest)) ?_
      intro e he
      rw [collapseSlashes_head? (d :: rest)] at he
      cases he
      exact h

theorem noSlashRun_dropWhile (q : Char → Bool) :
    ∀ l : List Char, noSlashRun l = true → noSlashRun (l.dropWhile q) = true := by
  intro l
  induction l with
  | nil => intro h; exact h
  | cons c t ih =>
    intro h
    rw [List.dropWhile_cons]
    split
    · exact ih (noSlashRun_tail c t h)
    · exact h

theorem noSlashRun_iff_chain : ∀ l : List Char,
    noSlashRun l = true ↔ List.Chain' (fun a b => ¬(a = '/' ∧ b = '/')) l
  | [] => by simp [noSlashRun]
  | [c] => by simp [noSlashRun]
  | c :: d :: rest => by
    rw [List.chain'_cons]
    simp only [noSlashRun]
    split
    · next h => simp [h]
    · next h =>
      rw [noSlashRun_iff_chain (d :: rest)]
      simp [h]

theorem noSlashRun_reverse (l : List Char) :
    noSlashRun l.reverse = noSlashRun l := by
  apply Bool.eq_iff_iff.mpr
  rw [noSlashRun_iff_chain, noSlashRun_iff_chain, List.chain'_reverse]
  have hflip : (flip fun a b : Char => ¬(a = '/' ∧ b = '/')) =
      fun a b : Char => ¬(a = '/' ∧ b = '/') := by
    funext a b
    simp [flip, and_comm]
  rw [hflip]

theorem noSlashRun_trimChars (l : List Char) (h : noSlashRun l = true) :
    noSlashRun (trimChars l) = true := by
  unfold trimChars
  rw [noSlashRun_reverse]
  apply noSlashRun_dropWhile
  rw [noSlashRun_reverse]
  exact noSlashRun_dropWhile _ _ h

theorem collapseSlashes_of_noSlashRun : ∀ l : List Char,
    noSlashRun l = true → collapseSlashes l = l
  | [] => fun _ => rfl
  | [_] => fun _ => rfl
  | c :: d :: rest => by
    intro h
    simp only [noSlashRun] at h
    simp only [collapseSlashes]
    split at h
    · cases h
    · next hne =>
      rw [if_neg hne, collapseSlashes_of_noSlashRun (d :: rest) h]

theorem dropWhile_head?_false (q : Char → Bool) :
    ∀ (l : List Char) (c : Char), (l.dropWhile q).head? = some c → q c = false := by
  intro l
  induction l with
  | nil => intro c h; cases h
  | cons a t ih =>
    intro c h
    rw [List.dropWhile_cons] at h
    split at h
    · exact ih c h
    · next hq =>
      cases h
      exact Bool.not_eq_true _ |>.mp hq

theorem trimChars_getLast? (l : List Char) (c : Char)
    (h : (trimChars l).getLast? = some c) : isRustWhitespace c = false := by
  unfold trimChars at h
  rw [List.getLast?_reverse] at h
  exact dropWhile_head?_false _ _ _ h

theorem dropWhile_eq_self_of_head (q : Char → Bool) (l : List Char)
    (h : ∀ c, l.head? = some c → q c = false) : l.dropWhile q = l := by
  cases l with
  | nil => rfl
  | cons a t =>
    rw [List.dropWhile_cons, if_neg]
    simp [h a rfl]

theorem trimChars_eq_self (l : List Char)
    (hh : ∀ c, l.head? = some c → isRustWhitespace c = false)
    (hl : ∀ c, l.getLast? = some c → isRustWhitespace c = false) :
    trimChars l = l := by
  unfold trimChars
  rw [dropWhile_eq_self_of_head _ _ hh]
  rw [dropWhile_eq_self_of_head _ l.reverse]
  · exact List.reverse_reverse l
  · intro c hc
    rw [List.head?_reverse] at hc
    exact hl c hc

theorem normalizeChars_head? (l : List Char) :
    (normalizeChars l).head? = some '/' := by
  simp only [normalizeChars]
  split
  · next h => exact h
  · rfl

theorem normalizeChars_noSlashRun (l : List Char) :
    noSlashRun (normalizeChars l) = true := by
  have h1 : noSlashRun (trimChars (collapseSlashes l)) = true :=
    noSlashRun_trimChars _ (collapseSlashes_noSlashRun l)
  simp only [normalizeChars]
  split
  · exact h1
  · next h =>
    refine noSlashRun_cons '/' _ h1 ?_
    intro d hd hcd
    exact h (by rw [hd, hcd.2])

theorem normalizeChars_getLast? (l : List Char) (c : Char)
    (h : (normalizeChars l).getLast? = some c) : isRustWhitespace c = false := by
  simp only [normalizeChars] at h
  split at h
  · exact trimChars_getLast? _ _ h
  · cases hs : trimChars (collapseSlashes l) with
    | nil =>
      rw [hs] at h
      cases h
      decide
    | cons x t =>
      rw [hs] at h
      rw [List.getLast?_cons_cons] at h
      exact trimChars_getLast? (collapseSlashes l) c (by rw [hs]; exact h)

theorem normalizeChars_idem (l : List Char) :
    normalizeChars (normalizeChars l) = normalizeChars l := by
  have hnsr := normalizeChars_noSlashRun l
  have hhead := normalizeChars_head? l
  have hcoll : collapseSlashes (normalizeChars l) = normalizeChars l :=
    collapseSlashes_of_noSlashRun _ hnsr
  have htrim : trimChars (normalizeChars l) = normalizeChars l := by
    apply trimChars_eq_self
    · intro c hc
      rw [hhead] at hc
      cases hc
      decide
    · exact normalizeChars_getLast? l
  conv_lhs => rw [normalizeChars]
  rw [hcoll, htrim, if_pos hhead]

/-! ## Helper lemmas on first-match scans -/

theorem find?_append_first {α} (q : α → Bool) (pre : List α) (x : α) (post : List α)
    (hpre : ∀ y ∈ pre, q y = false) (hx : q x = true) :
    (pre ++ x :: post).find? q = some x := by
  induction pre with
  | nil => simp [List.find?_cons, hx]
  | cons a t ih =>
    have ha : q a = false := hpre a (List.mem_cons_self a t)
    simp only [List.cons_append, List.find?_cons, ha]
    exact ih (fun y hy => hpre y (List.mem_cons_of_mem a hy))

theorem firstFeatureMatch_eq_none (p : String) (fs : List FeaturePack)
    (h : ∀ f ∈ fs, ∀ r ∈ f.manifest.routes, path_matches p r.path = false) :
    firstFeatureMatch p fs = none := by
  induction fs with
  | nil => rfl
  | cons f t ih =>
    have hf : firstFeatureRoute p f.manifest.routes = none := by
      apply List.find?_eq_none.mpr
      intro r hr
      simp [h f (List.mem_cons_self f t) r hr]
    simp only [firstFeatureMatch, hf]
    exact ih (fun g hg => h g (List.mem_cons_of_mem f hg))

theorem firstFeatureMatch_append (p : String) (fpre : List FeaturePack)
    (f : FeaturePack) (fpost : List FeaturePack) (rpre : List FeatureRoute)
    (r : FeatureRoute) (rpost : List FeatureRoute)
    (hpre : ∀ f' ∈ fpre, ∀ r' ∈ f'.manifest.routes, path_matches p r'.path = false)
    (hroutes : f.manifest.routes = rpre ++ r :: rpost)
    (hrpre : ∀ r' ∈ rpre, path_matches p r'.path = false)
    (hr : path_matches p r.path = true) :
    firstFeatureMatch p (fpre ++ f :: fpost) = some (f, r) := by
  induction fpre with
  | nil =>
    have hfind : firstFeatureRoute p f.manifest.routes = some r := by
      rw [firstFeatureRoute, hroutes]
      exact find?_append_first _ _ _ _ hrpre hr
    simp only [List.nil_append, firstFeatureMatch, hfind]
  | cons g t ih =>
    have hg : firstFeatureRoute p g.manifest.routes = none := by
      apply List.find?_eq_none.mpr
      intro r' hr'
      simp [hpre g (List.mem_cons_self g t) r' hr']
    simp only [List.cons_append, firstFeatureMatch, hg]
    exact ih (fun f' hf' => hpre f' (List.mem_cons_of_mem g hf'))

/-! ## Helper lemmas on HTML surgery -/

mutual
theorem replaceFirstNode_no_match (m : HtmlNode → Bool) (nc : List HtmlNode) :
    ∀ n : HtmlNode, anyMatchNode m n = false → replaceFirstNode m nc n = (n, false)
  | .text s => fun _ => rfl
  | .element t a cs => fun h => by
    simp only [anyMatchNode, Bool.or_eq_false_iff] at h
    simp only [replaceFirstNode, h.1, Bool.false_eq_true, if_false]
    rw [replaceFirstList_no_match m nc cs h.2]

theorem replaceFirstList_no_match (m : HtmlNode → Bool) (nc : List HtmlNode) :
    ∀ l : List HtmlNode, anyMatchList m l = false → replaceFirstList m nc l = (l, false)
  | [] => fun _ => rfl
  | c :: rest => fun h => by
    simp only [anyMatchList, Bool.or_eq_false_iff] at h
    simp only [replaceFirstList]
    rw [replaceFirstNode_no_match m nc c h.1, replaceFirstList_no_match m nc rest h.2]
    rfl
end

theorem replace_selector_no_match (B : HtmlBackend) (doc : HtmlNode)
    (selector new_html : String)
    (h : anyMatchNode (nodeMatches (B.selMatch selector)) doc = false) :
    replace_selector_inner_html B doc selector new_html = doc := by
  unfold replace_selector_inner_html
  rw [replaceFirstNode_no_match _ _ _ h]

theorem foldl_replace_no_match (B : HtmlBackend) (doc : HtmlNode) :
    ∀ rendered : List (FragmentBinding × String × String),
      (∀ pair ∈ rendered,
        anyMatchNode (nodeMatches (B.selMatch pair.1.selector)) doc = false) →
      rendered.foldl
        (fun d bh => replace_selector_inner_html B d bh.1.selector bh.2.1) doc = doc
  | [] => fun _ => rfl
  | p :: rest => fun h => by
    simp only [List.foldl_cons]
    rw [replace_selector_no_match B doc _ _ (h p (List.mem_cons_self p rest))]
    exact foldl_replace_no_match B doc rest
      (fun q hq => h q (List.mem_cons_of_mem p hq))

/-! ## Claims -/

/-- C2: for the route pattern `/docs/*`, `path_matches` accepts exactly the
paths having `/docs` (the pattern minus the trailing `*` and its preceding
slash) as a prefix; in particular it matches `/docs`, `/docs/` and
`/docs/api` and rejects `/documentation`. -/
theorem claim_C2_docs_pattern :
    (∀ p : String, path_matches p "/docs/*" = ("/docs".data).isPrefixOf p.data) ∧
    path_matches "/docs" "/docs/*" = true ∧
    path_matches "/docs/" "/docs/*" = true ∧
    path_matches "/docs/api" "/docs/*" = true ∧
    path_matches "/documentation" "/docs/*" = false :=
  ⟨fun _ => rfl, rfl, rfl, rfl, rfl⟩

/-- C6: `inject_fragments` called with an empty binding list returns the
input document string unchanged, for every backend, renderer, session,
tenant and route — the empty list short-circuits before any parsing. -/
theorem claim_C6_empty_bindings_identity :
    ∀ (B : HtmlBackend) (renderer : RendererFn) (html : String)
      (session : Option SessionInfo) (tenant_did route : String),
      inject_fragments B renderer html [] session tenant_did route = .ok html :=
  fun _ _ _ _ _ _ => rfl

/-- C9: the composite renderer returns the WIT (sandboxed-module)
renderer's markup whenever the module produces markup, propagates a
missing-secrets error without consulting the file renderer (both results
hold for EVERY file renderer), and falls through to the file renderer
exactly when the module renderer has no opinion — which is how any module
error without the `missing_secrets` marker is classified. -/
theorem claim_C9_composite_order :
    ∀ (invoker : InvokerFn) (file : RendererFn) (binding : FragmentBinding)
      (assets_root : String) (ctx : FragmentContext),
      (∀ html,
        invoker binding.component_world binding.component_name binding.id
            assets_root ctx = .ok html →
        CompositeFragmentRenderer.render_fragment (some invoker) file binding
            assets_root ctx = .ok (some html)) ∧
      (∀ err,
        invoker binding.component_world binding.component_name binding.id
            assets_root ctx = .error err →
        listContains err.data "missing_secrets".data = true →
        CompositeFragmentRenderer.render_fragment (some invoker) file binding
            assets_root ctx = .error (.missingSecrets err)) ∧
      (∀ err,
        invoker binding.component_world binding.component_name binding.id
            assets_root ctx = .error err →
        listContains err.data "missing_secrets".data = false →
        WitFragmentRenderer.render_fragment invoker binding assets_root ctx
            = .ok none ∧
        CompositeFragmentRenderer.render_fragment (some invoker) file binding
            assets_root ctx = file binding assets_root ctx) := by
  intro invoker file binding assets_root ctx
  refine ⟨?_, ?_, ?_⟩
  · intro html h
    simp [CompositeFragmentRenderer.render_fragment,
      WitFragmentRenderer.render_fragment, h]
  · intro err h hms
    simp [CompositeFragmentRenderer.render_fragment,
      WitFragmentRenderer.render_fragment, h, hms]
  · intro err h hms
    constructor
    · simp [WitFragmentRenderer.render_fragment, h, hms]
    · simp [CompositeFragmentRenderer.render_fragment,
        WitFragmentRenderer.render_fragment, h, hms]

def c9InvokerOk : InvokerFn := fun _ _ _ _ _ => .ok "<b>hi</b>"

def c9InvokerSecrets : InvokerFn := fun _ _ _ _ _ => .error "missing_secrets: api_key"

def c9InvokerBoom : InvokerFn := fun _ _ _ _ _ => .error "trap"

def c9File : RendererFn := fun _ _ _ => .ok (some "<p>from file</p>")

def c9Ctx : FragmentContext :=
  { tenant_ctx := "tenant", user_ctx := "u", route := "/", session_id := "s" }

/-- Witness for C9 at concrete invokers: markup wins, the missing-secrets
marker propagates, and any other error falls through to the file result. -/
theorem claim_C9_witness :
    CompositeFragmentRenderer.render_fragment (some c9InvokerOk) c9File
        sampleBinding "/tmp/a" c9Ctx = .ok (some "<b>hi</b>") ∧
    CompositeFragmentRenderer.render_fragment (some c9InvokerSecrets) c9File
        sampleBinding "/tmp/a" c9Ctx = .error (.missingSecrets "missing_secrets: api_key") ∧
    CompositeFragmentRenderer.render_fragment (some c9InvokerBoom) c9File
        sampleBinding "/tmp/a" c9Ctx = .ok (some "<p>from file</p>") :=
  ⟨(claim_C9_composite_order c9InvokerOk c9File sampleBinding "/tmp/a" c9Ctx).1
      "<b>hi</b>" rfl,
   (claim_C9_composite_order c9InvokerSecrets c9File sampleBinding "/tmp/a" c9Ctx).2.1
      "missing_secrets: api_key" rfl (by decide),
   ((claim_C9_composite_order c9InvokerBoom c9File sampleBinding "/tmp/a" c9Ctx).2.2
      "trap" rfl (by decide)).2⟩

def c10Read : String → Except String ManifestRead :=
  fun _ => .ok { kindField := some "gui-feature", asFeature := .ok sampleFeature.manifest }

/-- C10: the remote (distributor) provider's `load_features` always returns
at most one pack — the single configured feature reference — while the
filesystem provider returns one entry per feature-pack directory (two
directories yield two packs). -/
theorem claim_C10_remote_single_feature :
    (∀ (loadPack : String → PackKind → Except String (Option GuiPack))
        (tenant : String) (l : List GuiPack),
       DistributorPackProvider.load_features loadPack tenant = .ok l →
       l.length ≤ 1) ∧
    (∃ l, FsPackProvider.load_features "/packs" "acme" c10Read ["feat-a", "feat-b"]
        = .ok l ∧ l.length = 2) := by
  constructor
  · intro loadPack tenant l h
    unfold DistributorPackProvider.load_features at h
    cases hl : loadPack tenant .guiFeature with
    | error e => rw [hl] at h; cases h
    | ok o =>
      rw [hl] at h
      cases o with
      | some p => cases h; exact Nat.le_refl 1
      | none => cases h; exact Nat.zero_le 1
  · exact ⟨_, rfl, rfl⟩

/-- Witness for C10 at a concrete `load_pack` returning one feature pack. -/
theorem claim_C10_witness :
    [GuiPack.feature sampleFeature.manifest "/tmp/feature"].length ≤ 1 :=
  claim_C10_remote_single_feature.1
    (fun _ _ => .ok (some (GuiPack.feature sampleFeature.manifest "/tmp/feature")))
    "acme" [GuiPack.feature sampleFeature.manifest "/tmp/feature"] rfl

/-- C5: resolving the same `(tenant, kind)` twice with no intervening cache
clear yields the identical local path with exactly one remote call (the
second hit is served from the cache and leaves the state untouched);
`reset_cache` empties the cache, after which the next resolution performs a
remote call again. -/
theorem claim_C5_distributor_cache :
    ∀ (packs : PackKind → Option DistributorPackRef) (remote : RemoteOracle)
      (st0 : DistState) (tenant : String) (kind : PackKind)
      (ref : DistributorPackRef) (path : String),
      packs kind = some ref →
      lookupCache st0.cache (cacheKey tenant kind) = none →
      remote st0.remoteCalls = .ok path →
      ∃ st1 : DistState,
        DistributorPackProvider.resolve packs remote st0 tenant kind =
          (.ok (some path), st1) ∧
        DistributorPackProvider.resolve packs remote st1 tenant kind =
          (.ok (some path), st1) ∧
        st1.remoteCalls = st0.remoteCalls + 1 ∧
        (DistributorPackProvider.reset_cache st1).cache = [] ∧
        (DistributorPackProvider.resolve packs remote
            (DistributorPackProvider.reset_cache st1) tenant kind).2.remoteCalls =
          st1.remoteCalls + 1 := by
  intro packs remote st0 tenant kind ref path hpack hmiss hremote
  refine ⟨{ cache := (cacheKey tenant kind, path) :: st0.cache,
            remoteCalls := st0.remoteCalls + 1 }, ?_, ?_, rfl, rfl, ?_⟩
  · simp only [DistributorPackProvider.resolve, hpack, hmiss, hremote]
  · simp only [DistributorPackProvider.resolve, hpack]
    have hhit : lookupCache ((cacheKey tenant kind, path) :: st0.cache)
        (cacheKey tenant kind) = some path := by
      simp [lookupCache]
    simp only [hhit]
  · simp only [DistributorPackProvider.resolve, DistributorPackProvider.reset_cache,
      hpack]
    have hempty : lookupCache [] (cacheKey tenant kind) = none := rfl
    simp only [hempty]
    cases remote (st0.remoteCalls + 1) <;> rfl

def c5Packs : PackKind → Option DistributorPackRef :=
  fun _ => some { pack_id := "pack", component_id := "comp", version := "1.0.0" }

def c5Remote : RemoteOracle := fun _ => .ok "/tmp/materialized"

/-- Witness for C5 from the fresh provider state. -/
theorem claim_C5_witness :
    ∃ st1 : DistState,
      DistributorPackProvider.resolve c5Packs c5Remote ⟨[], 0⟩ "acme" .guiLayout =
        (.ok (some "/tmp/materialized"), st1) ∧
      DistributorPackProvider.resolve c5Packs c5Remote st1 "acme" .guiLayout =
        (.ok (some "/tmp/materialized"), st1) ∧
      st1.remoteCalls = 0 + 1 ∧
      (DistributorPackProvider.reset_cache st1).cache = [] ∧
      (DistributorPackProvider.resolve c5Packs c5Remote
          (DistributorPackProvider.reset_cache st1) "acme" .guiLayout).2.remoteCalls =
        st1.remoteCalls + 1 :=
  claim_C5_distributor_cache c5Packs c5Remote ⟨[], 0⟩ "acme" .guiLayout
    { pack_id := "pack", component_id := "comp", version := "1.0.0" }
    "/tmp/materialized" rfl rfl rfl

/-- C3: for every input string, the normalized path starts with exactly one
`/` (a leading slash whose successor, if any, is not a slash), contains no
run of two or more consecutive `/` characters, and normalization is
idempotent. -/
theorem claim_C3_normalization :
    ∀ p : String,
      (normalize_route p).data.head? = some '/' ∧
      (normalize_route p).data.tail.head? ≠ some '/' ∧
      List.Chain' (fun a b => ¬(a = '/' ∧ b = '/')) (normalize_route p).data ∧
      normalize_route (normalize_route p) = normalize_route p := by
  intro p
  have hh := normalizeChars_head? p.data
  have hn := normalizeChars_noSlashRun p.data
  refine ⟨hh, ?_, (noSlashRun_iff_chain _).mp hn, ?_⟩
  · show (normalizeChars p.data).tail.head? ≠ some '/'
    cases hm : normalizeChars p.data with
    | nil =>
      rw [hm] at hh
      cases hh
    | cons c t =>
      rw [hm] at hh hn
      cases hh
      cases t with
      | nil => simp
      | cons d r =>
        intro hcon
        simp only [List.tail_cons, List.head?_cons, Option.some.injEq] at hcon
        simp only [noSlashRun, hcon, and_self, if_pos] at hn
        cases hn
  · exact congrArg String.mk (normalizeChars_idem p.data)

/-- C1: whenever some feature route matches the (normalized) path, the
resolved route is built from the first matching feature route — feature
packs scanned in pack-list order, routes in manifest order — carrying that
route's document, its `authenticated` flag and the feature's fragment
targets, and the auth packs are never consulted (the result is the same
for every value of `cfg.auth`); only when no feature route matches are the
auth routes scanned the same way, the result then carrying the negated
`public` flag and no fragments. -/
theorem claim_C1_feature_precedence :
    ∀ (cfg : TenantGuiConfig) (path : String),
      (∀ fpre f fpost rpre r rpost,
        cfg.features = fpre ++ f :: fpost →
        (∀ f' ∈ fpre, ∀ r' ∈ f'.manifest.routes,
          path_matches (normalize_route path) r'.path = false) →
        f.manifest.routes = rpre ++ r :: rpost →
        (∀ r' ∈ rpre, path_matches (normalize_route path) r'.path = false) →
        path_matches (normalize_route path) r.path = true →
        cfg.resolve_route path = some (featureResolved f r) ∧
        (∀ auth', TenantGuiConfig.resolve_route { cfg with auth := auth' } path =
          some (featureResolved f r))) ∧
      ((∀ f ∈ cfg.features, ∀ r ∈ f.manifest.routes,
          path_matches (normalize_route path) r.path = false) →
        ∀ a rpre r rpost,
          cfg.auth = some a →
          a.manifest.routes = rpre ++ r :: rpost →
          (∀ r' ∈ rpre, path_matches (normalize_route path) r'.path = false) →
          path_matches (normalize_route path) r.path = true →
          cfg.resolve_route path = some (authResolved a r)) := by
  intro cfg path
  constructor
  · intro fpre f fpost rpre r rpost hfs hpre hroutes hrpre hr
    have hmatch : firstFeatureMatch (normalize_route path) cfg.features = some (f, r) := by
      rw [hfs]
      exact firstFeatureMatch_append _ _ _ _ _ _ _ hpre hroutes hrpre hr
    constructor
    · simp only [TenantGuiConfig.resolve_route, hmatch]
    · intro auth'
      simp only [TenantGuiConfig.resolve_route, hmatch]
  · intro hnone a rpre r rpost hauth hroutes hrpre hr
    have hmatch : firstFeatureMatch (normalize_route path) cfg.features = none :=
      firstFeatureMatch_eq_none _ _ hnone
    have hfind : firstAuthRoute (normalize_route path) a.manifest.routes = some r := by
      rw [firstAuthRoute, hroutes]
      exact find?_append_first _ _ _ _ hrpre hr
    simp only [TenantGuiConfig.resolve_route, hmatch, hauth, hfind]

/-- Witness for C1: on the sample tenant, `/invoices` resolves from the
feature route (authenticated, with the feature's fragment target, with or
without an auth pack installed), while `/login` — matched by no feature —
resolves from the public auth route. -/
theorem claim_C1_witness :
    TenantGuiConfig.resolve_route sampleConfig "/invoices" =
      some (featureResolved sampleFeature
        { path := "/invoices", authenticated := true, html := "invoices.html" }) ∧
    TenantGuiConfig.resolve_route { sampleConfig with auth := none } "/invoices" =
      some (featureResolved sampleFeature
        { path := "/invoices", authenticated := true, html := "invoices.html" }) ∧
    TenantGuiConfig.resolve_route sampleConfig "/login" =
      some (authResolved sampleAuth
        { path := "/login", public := true, html := "login.html" }) := by
  have h1 := (claim_C1_feature_precedence sampleConfig "/invoices").1
    [] sampleFeature [] []
    { path := "/invoices", authenticated := true, html := "invoices.html" } []
    rfl (by intro f' hf'; cases hf') rfl (by intro r' hr'; cases hr') (by decide)
  have h2 := (claim_C1_feature_precedence sampleConfig "/login").2
    (by decide) sampleAuth []
    { path := "/login", public := true, html := "login.html" } []
    rfl rfl (by intro r' hr'; cases hr') (by decide)
  exact ⟨h1.1, h1.2 none, h2⟩

/-- C4: route resolution is total — it always returns `some` route — and
when neither a feature route nor an auth route matches, the result is the
layout fallback: the layout's entrypoint document, unauthenticated, with no
fragments. -/
theorem claim_C4_resolution_total :
    ∀ (cfg : TenantGuiConfig) (path : String),
      (cfg.resolve_route path).isSome = true ∧
      ((∀ f ∈ cfg.features, ∀ r ∈ f.manifest.routes,
          path_matches (normalize_route path) r.path = false) →
       (∀ a, cfg.auth = some a → ∀ r ∈ a.manifest.routes,
          path_matches (normalize_route path) r.path = false) →
       cfg.resolve_route path = some (layoutResolved cfg.layout)) := by
  intro cfg path
  constructor
  · cases hm : firstFeatureMatch (normalize_route path) cfg.features with
    | some fr => simp [TenantGuiConfig.resolve_route, hm]
    | none =>
      cases ha : cfg.auth with
      | none => simp [TenantGuiConfig.resolve_route, hm, ha]
      | some a =>
        cases hr : firstAuthRoute (normalize_route path) a.manifest.routes with
        | some r => simp [TenantGuiConfig.resolve_route, hm, ha, hr]
        | none => simp [TenantGuiConfig.resolve_route, hm, ha, hr]
  · intro hfeat hauth
    have hmatch : firstFeatureMatch (normalize_route path) cfg.features = none :=
      firstFeatureMatch_eq_none _ _ hfeat
    cases ha : cfg.auth with
    | none => simp only [TenantGuiConfig.resolve_route, hmatch, ha]
    | some a =>
      have hfind : firstAuthRoute (normalize_route path) a.manifest.routes = none := by
        apply List.find?_eq_none.mpr
        intro r hr
        simp [hauth a ha r hr]
      simp only [TenantGuiConfig.resolve_route, hmatch, ha, hfind]

/-- Witness for C4: `/nowhere` matches neither the sample feature route nor
the sample auth route and falls back to the layout entrypoint. -/
theorem claim_C4_witness :
    TenantGuiConfig.resolve_route sampleConfig "/nowhere" =
      some (layoutResolved sampleLayout) :=
  (claim_C4_resolution_total sampleConfig "/nowhere").2 (by decide)
    (by intro a ha; cases ha; decide)

/-- Witness for C3 at a concrete path containing slash runs. -/
theorem claim_C3_witness :
    normalize_route (normalize_route "//a//b") = normalize_route "//a//b" ∧
    normalize_route "//a//b" = "/a/b" :=
  ⟨(claim_C3_normalization "//a//b").2.2.2, rfl⟩

/-! ### A concrete HTML backend for the injection claims

Modelled from the spec: the HTML parse/serialize primitives live in the
external kuchiki crate, not in this repository's sources. The spec's
injection contract says the document is parsed once and the mutated tree is
re-serialized; HTML5 parsing puts the mandatory `html`/`head`/`body`
scaffolding around bare content, and serialization prints the whole tree
with double-quoted attributes. `kuchikiModel` reproduces exactly this for
scaffolding-free input (bare text, as used below) and interprets `#id`
selectors; it exists to evaluate the injection pipeline at concrete inputs,
while the injection theorems themselves hold for every backend. -/

def serializeAttrs : List (String × String) → String
  | [] => ""
  | kv :: rest => " " ++ kv.1 ++ "=\"" ++ kv.2 ++ "\"" ++ serializeAttrs rest

mutual
def serializeNode : HtmlNode → String
  | .text s => s
  | .element t attrs cs =>
    "<" ++ t ++ serializeAttrs attrs ++ ">" ++ serializeList cs ++ "</" ++ t ++ ">"

def serializeList : List HtmlNode → String
  | [] => ""
  | c :: rest => serializeNode c ++ serializeList rest
end

/-- CSS `#id` selector matching against an element's attributes. -/
def idSelMatch (sel : String) (attrs : List (String × String)) : Bool :=
  match sel.data with
  | '#' :: rest => attrs.any (fun kv => kv.1 == "id" && kv.2 == String.mk rest)
  | _ => false

def kuchikiModel : HtmlBackend where
  parse s := .element "html" [] [.element "head" [] [], .element "body" [] [.text s]]
  serialize := serializeNode
  selMatch sel _tag attrs := idSelMatch sel attrs

/-- C7 (amended): for every backend, renderer and non-empty binding list
whose rendered fragments all have selectors matching zero nodes of the
parsed document, `inject_fragments` returns exactly the serialization of
the parsed input document, no node having been altered — byte-identical to
the input only when the input already equals its own parse-then-serialize
normal form. -/
theorem claim_C7_zero_match_roundtrip :
    ∀ (B : HtmlBackend) (renderer : RendererFn) (html : String)
      (bindings : List FragmentTarget) (session : Option SessionInfo)
      (tenant_did route : String),
      bindings ≠ [] →
      (∀ pair ∈ bindings.filterMap (renderedOf renderer session tenant_did route),
        anyMatchNode (nodeMatches (B.selMatch pair.1.selector)) (B.parse html) = false) →
      inject_fragments B renderer html bindings session tenant_did route =
        .ok (B.serialize (B.parse html)) := by
  intro B renderer html bindings session tenant_did route hne hmatch
  unfold inject_fragments
  rw [if_neg (by simp [List.isEmpty_iff, hne])]
  show Except.ok (B.serialize ((bindings.filterMap
      (renderedOf renderer session tenant_did route)).foldl
      (fun doc bh => replace_selector_inner_html B doc bh.1.selector bh.2.1)
      (B.parse html))) = Except.ok (B.serialize (B.parse html))
  rw [foldl_replace_no_match B (B.parse html) _ hmatch]

def c7Renderer : RendererFn := fun _ _ _ => .ok (some "<span>x</span>")

def c7Target : FragmentTarget :=
  { binding :=
      { id := "frag"
        selector := "#nope"
        component_world := "greentic:gui/gui-fragment@1.0.0"
        component_name := "fragment" }
    assets_root := "/tmp/feature/gui/assets" }

/-- Witness for C7 (amended): one successfully rendered binding whose
selector `#nope` matches nothing leaves the tree unchanged, and the output
is the parse-then-serialize round trip of the input. -/
theorem claim_C7_witness :
    inject_fragments kuchikiModel c7Renderer "hi" [c7Target] none "tenant" "/" =
      .ok (kuchikiModel.serialize (kuchikiModel.parse "hi")) :=
  claim_C7_zero_match_roundtrip kuchikiModel c7Renderer "hi" [c7Target] none
    "tenant" "/" (by simp) (by decide)

/-- Counterexample to C7 as stated: the binding list is non-empty, its only
rendered fragment's selector matches zero nodes of the parsed document, yet
the returned string is the re-serialization of the parse — for the bare
text `hi` that is the scaffolded document, not the input itself. -/
theorem claim_C7_counterexample :
    [c7Target] ≠ [] ∧
    [c7Target].filterMap (renderedOf c7Renderer none "tenant" "/") =
      [(c7Target.binding, "<span>x</span>", "/tmp/feature/gui/assets")] ∧
    anyMatchNode (nodeMatches (kuchikiModel.selMatch "#nope"))
      (kuchikiModel.parse "hi") = false ∧
    inject_fragments kuchikiModel c7Renderer "hi" [c7Target] none "tenant" "/" =
      .ok "<html><head></head><body>hi</body></html>" ∧
    inject_fragments kuchikiModel c7Renderer "hi" [c7Target] none "tenant" "/" ≠
      .ok "hi" := by
  refine ⟨by simp, rfl, by decide, rfl, fun h => ?_⟩
  have h2 : ("<html><head></head><body>hi</body></html>" : String) = "hi" :=
    Except.ok.inj h
  exact absurd h2 (by decide)

/-- C8: when the renderer reports missing secrets for one binding, the
collected injection list carries, at that binding's position, exactly the
placeholder `missing secrets for fragment` tagged with the binding id,
while every binding the renderer succeeded on keeps its own markup —
bindings are rendered independently, so the failure leaves the others
untouched; each collected pair is then injected (in order) into the first
node matching its selector, the matched target's children becoming the
parsed placeholder markup. -/
theorem claim_C8_missing_secrets_placeholder :
    ∀ (B : HtmlBackend) (renderer : RendererFn) (session : Option SessionInfo)
      (tenant_did route html : String) (pre post : List FragmentTarget)
      (t : FragmentTarget) (msg : String),
      renderer t.binding t.assets_root (mkFragmentContext session tenant_did route) =
        .error (.missingSecrets msg) →
      ((pre ++ t :: post).filterMap (renderedOf renderer session tenant_did route) =
        pre.filterMap (renderedOf renderer session tenant_did route) ++
          (t.binding, missingSecretsFallback t.binding.id, t.assets_root) ::
            post.filterMap (renderedOf renderer session tenant_did route)) ∧
      missingSecretsFallback t.binding.id =
        "<div class=\"fragment-error\" data-fragment-id=\"" ++ t.binding.id ++
          "\">missing secrets for fragment</div>" ∧
      (∀ (t' : FragmentTarget) (markup : String),
        renderer t'.binding t'.assets_root
            (mkFragmentContext session tenant_did route) = .ok (some markup) →
        renderedOf renderer session tenant_did route t' =
          some (t'.binding, markup, t'.assets_root)) ∧
      (∀ (tag : String) (attrs : List (String × String)) (cs : List HtmlNode),
        B.selMatch t.binding.selector tag attrs = true →
        replace_selector_inner_html B (.element tag attrs cs) t.binding.selector
            (missingSecretsFallback t.binding.id) =
          .element tag attrs (wrapperChildren B (missingSecretsFallback t.binding.id))) ∧
      inject_fragments B renderer html (pre ++ t :: post) session tenant_did route =
        .ok (B.serialize
          (((pre ++ t :: post).filterMap
              (renderedOf renderer session tenant_did route)).foldl
            (fun doc bh => replace_selector_inner_html B doc bh.1.selector bh.2.1)
            (B.parse html))) := by
  intro B renderer session tenant_did route html pre post t msg hms
  have hrt : renderedOf renderer session tenant_did route t =
      some (t.binding, missingSecretsFallback t.binding.id, t.assets_root) := by
    unfold renderedOf
    rw [hms]
  refine ⟨?_, rfl, ?_, ?_, ?_⟩
  · rw [List.filterMap_append, List.filterMap_cons, hrt]
  · intro t' markup hok
    unfold renderedOf
    rw [hok]
  · intro tag attrs cs hsel
    unfold replace_selector_inner_html
    rw [show replaceFirstNode (nodeMatches (B.selMatch t.binding.selector))
        (wrapperChildren B (missingSecretsFallback t.binding.id))
        (.element tag attrs cs) =
        (.element tag attrs (wrapperChildren B (missingSecretsFallback t.binding.id)),
          true) from by
      simp only [replaceFirstNode, nodeMatches, hsel, if_pos]]
  · unfold inject_fragments
    rw [if_neg (by simp)]

/-- Renderer used by the C8 witness: the binding with id `secret` is
missing its secrets, every other binding renders its own markup. -/
def c8Renderer : RendererFn := fun b _ _ =>
  if b.id == "secret" then .error (.missingSecrets "missing_secrets: token")
  else .ok (some ("<em>" ++ b.id ++ "</em>"))

def c8TargetA : FragmentTarget :=
  { binding :=
      { id := "a"
        selector := "#slot-a"
        component_world := "greentic:gui/gui-fragment@1.0.0"
        component_name := "a" }
    assets_root := "/tmp/f/gui/assets" }

def c8TargetSecret : FragmentTarget :=
  { binding :=
      { id := "secret"
        selector := "#slot-s"
        component_world := "greentic:gui/gui-fragment@1.0.0"
        component_name := "secret" }
    assets_root := "/tmp/f/gui/assets" }

def c8TargetB : FragmentTarget :=
  { binding :=
      { id := "b"
        selector := "#slot-b"
        component_world := "greentic:gui/gui-fragment@1.0.0"
        component_name := "b" }
    assets_root := "/tmp/f/gui/assets" }

/-- Witness for C8: with bindings `a`, `secret`, `b`, the collected list is
`a`'s markup, the exact missing-secrets placeholder, then `b`'s markup; a
node matched by the failing binding's selector receives the parsed
placeholder as its children. -/
theorem claim_C8_witness :
    ([c8TargetA] ++ c8TargetSecret :: [c8TargetB]).filterMap
        (renderedOf c8Renderer none "tenant" "/") =
      [c8TargetA].filterMap (renderedOf c8Renderer none "tenant" "/") ++
        (c8TargetSecret.binding, missingSecretsFallback "secret",
          "/tmp/f/gui/assets") ::
          [c8TargetB].filterMap (renderedOf c8Renderer none "tenant" "/") ∧
    missingSecretsFallback "secret" =
      "<div class=\"fragment-error\" data-fragment-id=\"secret\">missing secrets for fragment</div>" ∧
    renderedOf c8Renderer none "tenant" "/" c8TargetA =
      some (c8TargetA.binding, "<em>a</em>", "/tmp/f/gui/assets") ∧
    replace_selector_inner_html kuchikiModel
        (.element "div" [("id", "slot-s")] [.text "old"]) "#slot-s"
        (missingSecretsFallback "secret") =
      .element "div" [("id", "slot-s")]
        (wrapperChildren kuchikiModel (missingSecretsFallback "secret")) := by
  have h := claim_C8_missing_secrets_placeholder kuchikiModel c8Renderer none
    "tenant" "/" "<div id=\"slot-s\">old</div>" [c8TargetA] [c8TargetB]
    c8TargetSecret "missing_secrets: token" rfl
  exact ⟨h.1, h.2.1, h.2.2.1 c8TargetA "<em>a</em>" rfl,
    h.2.2.2.1 "div" [("id", "slot-s")] [.text "old"] (by decide)⟩

end GreenticGui
